import Mathlib

/- Verification of `generate_modlist_from_save.py`: extraction of a RimWorld
mod list from a save file and its re-serialization as a mod-list XML document
and as a CSV file. The Python functions are embedded shallowly: XML documents
become a tree type, the `ET.Element` mutation in the emitters becomes explicit
list accumulation, and each Python exception becomes a constructor of an
explicit error type. -/

namespace RimSave

/-- Python string value as it appears at runtime: `none` models Python `None`
(for instance the `text` of an empty XML element), `some s` models an actual
`str` value `s`. -/
abbrev PyStr := Option String

/-- Shallow embedding of an `xml.etree.ElementTree.Element`: a tag name,
optional text content, and the list of direct children in document order.
Iterating over a Python `Element` yields exactly its direct children, which is
how the extractor walks the tree. -/
inductive Element : Type where
  | mk : String → Option String → List Element → Element

/-- Tag name of an element. -/
def Element.tag : Element → String
  | .mk t _ _ => t

/-- Text content of an element; `none` models Python `None`, which
`ElementTree` reports for an element with no text. -/
def Element.text : Element → Option String
  | .mk _ x _ => x

/-- Direct children of an element, in document order. -/
def Element.children : Element → List Element
  | .mk _ _ c => c

/-- The `ModFromSave` dataclass of the source. The Python source annotates all
three fields as `str` (and `cast`s the values, a runtime no-op), but at
runtime each field holds whatever `Element.text` returned, which is `None`
for an empty list item; the fields are therefore modelled as `PyStr`. -/
structure ModFromSave where
  mod_id : PyStr
  mod_steam_id : PyStr
  mod_name : PyStr
deriving DecidableEq, Repr

/-- The ways `extract_mod_from_save` can fail after XML parsing succeeded.
`missingMeta`, `gameVersionEmpty` and `mismatchedCounts` model the three
`raise RuntimeError` sites; `unboundLocal` models the Python
`UnboundLocalError` that line 68 raises when one of `mod_ids`,
`mod_steam_ids`, `mod_names` was never assigned because the corresponding
tag did not occur under `meta`. -/
inductive ExtractError : Type where
  | missingMeta
  | gameVersionEmpty
  | unboundLocal
  | mismatchedCounts (nIds nSteamIds nNames : Nat)
deriving DecidableEq, Repr

/-- The message attached to each error, transcribed from the source
(`unboundLocal` carries the interpreter message, not one written by the
program). -/
def ExtractError.message : ExtractError → String
  | .missingMeta => "Couldn\x27t find \x27meta\x27 element in rws file."
  | .gameVersionEmpty => "Game version is empty"
  | .unboundLocal => "local variable referenced before assignment"
  | .mismatchedCounts a b c =>
      "Different number of mod ids/names/steamids (" ++ toString a ++ "/"
        ++ toString b ++ "/" ++ toString c ++ ")"

/-- State of the local variables of `extract_mod_from_save` during the loop
over the children of `meta`. `game_version` is initialised to `None`
(line 51); the three list variables have no initialiser, so `none` models the
unbound state and `some` the assigned state. -/
structure ScanState where
  game_version : Option String
  mod_ids : Option (List PyStr)
  mod_steam_ids : Option (List PyStr)
  mod_names : Option (List PyStr)
deriving DecidableEq, Repr

/-- Local-variable state on entry to the loop: `game_version = None`, the
three list variables unbound. -/
def initScan : ScanState := ⟨none, none, none, none⟩

/-- One iteration of the loop over `meta`'s children (lines 52-62): dispatch
on the tag, assigning the whole variable each time, so a repeated tag
overwrites (\x22last occurrence wins\x22); unknown tags are skipped. -/
def scanMetaChild (s : ScanState) (c : Element) : ScanState :=
  if c.tag = "gameVersion" then { s with game_version := c.text }
  else if c.tag = "modIds" then
    { s with mod_ids := some (c.children.map Element.text) }
  else if c.tag = "modSteamIds" then
    { s with mod_steam_ids := some (c.children.map Element.text) }
  else if c.tag = "modNames" then
    { s with mod_names := some (c.children.map Element.text) }
  else s

/-- Python `zip` of the three attribute lists, truncating at the shortest,
building one `ModFromSave` per position (lines 77-92). -/
def zipMods : List PyStr → List PyStr → List PyStr → List ModFromSave
  | i :: is, st :: sts, n :: ns => ⟨i, st, n⟩ :: zipMods is sts ns
  | _, _, _ => []

/-- The direct children of the root whose tag is exactly `meta` (line 44). -/
def metaChildren (root : Element) : List Element :=
  root.children.filter fun c => c.tag = "meta"

/-- Body of `extract_mod_from_save` from line 51 on, operating on
`meta_el[0]`: scan the children, then check the game version (line 64), then
read the lengths of the three collected lists (line 68, which raises
`UnboundLocalError` if any of them was never assigned - building the error
message on line 71 reads `len(mod_names)` too, so all three variables are
read on every path through line 68), then compare them, then zip. -/
def extractFromMeta (meta : Element) : Except ExtractError (String × List ModFromSave) :=
  let s := meta.children.foldl scanMetaChild initScan
  match s.game_version with
  | none => .error .gameVersionEmpty
  | some gv =>
    match s.mod_ids, s.mod_steam_ids, s.mod_names with
    | some ids, some steams, some names =>
      if ids.length ≠ steams.length ∨ ids.length ≠ names.length then
        .error (.mismatchedCounts ids.length steams.length names.length)
      else
        .ok (gv, zipMods ids steams names)
    | _, _, _ => .error .unboundLocal

/-- `extract_mod_from_save`, applied to the already-parsed document root
(XML parse errors propagate before this logic runs and are outside this
model). Line 44 collects the direct children tagged `meta`; line 45 fails if
there are none; line 52 then uses only `meta_el[0]`, the first of them. -/
def extract_mod_from_save (root : Element) : Except ExtractError (String × List ModFromSave) :=
  match (metaChildren root).head? with
  | none => .error .missingMeta
  | some m => extractFromMeta m

/-- Lexicographic comparison of character lists by code point, the ordering
Python uses for `str` comparison. -/
def lexLe : List Char → List Char → Bool
  | [], _ => true
  | _ :: _, [] => false
  | a :: as, b :: bs =>
    if a.val.toNat < b.val.toNat then true
    else if b.val.toNat < a.val.toNat then false
    else lexLe as bs

/-- Python `<=` on `str`: lexicographic by code point. -/
def pyStrLe (a b : String) : Bool := lexLe a.toList b.toList

/-- The sort key comparison of `mods_to_csv` (line 174): compare the
`mod_id` fields as strings. In Python a comparison involving `None` raises
`TypeError`; that situation is modelled separately in `mods_to_csv`, and on
every input actually compared by the sort both fields are `some`, so the
`getD` default never decides an executed comparison. -/
def modIdLe (a b : ModFromSave) : Bool :=
  pyStrLe (a.mod_id.getD "") (b.mod_id.getD "")

/-- A list-item element `<li>` with the given text and no children, as
created by `ET.SubElement(node, \x22li\x22)` plus a text assignment. -/
def li (t : PyStr) : Element := .mk "li" t []

/-- The children accumulated, over the loop of lines 146-151, by the five
nodes of the output document that receive one `li` per mod. -/
structure ModListAcc where
  ids : List Element
  steams : List Element
  names : List Element
  modlist_ids : List Element
  modlist_names : List Element

/-- One iteration of the loop of lines 146-151: append one `li` to each of
the five accumulating nodes. -/
def addMod (a : ModListAcc) (m : ModFromSave) : ModListAcc :=
  { ids := a.ids ++ [li m.mod_id]
    steams := a.steams ++ [li m.mod_steam_id]
    names := a.names ++ [li m.mod_name]
    modlist_ids := a.modlist_ids ++ [li m.mod_id]
    modlist_names := a.modlist_names ++ [li m.mod_name] }

/-- `mods_to_modlist` (lines 121-157): `none` models the early return with no
file written (lines 132-134); `some doc` models writing the document `doc` to
the output path. The element tree mirrors the `ET.SubElement` construction:
root `savedModList` with a `meta` block (`gameVersion`, `modIds`,
`modSteamIds`, `modNames`) and a `modList` block (`ids`, `names` - no Steam
id list), the per-mod `li` children being appended by the loop. -/
def mods_to_modlist (game_version : String) (mods : List ModFromSave) : Option Element :=
  if mods.length = 0 then none
  else
    let acc := mods.foldl addMod ⟨[], [], [], [], []⟩
    some (.mk "savedModList" none
      [ .mk "meta" none
          [ .mk "gameVersion" (some game_version) []
          , .mk "modIds" none acc.ids
          , .mk "modSteamIds" none acc.steams
          , .mk "modNames" none acc.names ]
      , .mk "modList" none
          [ .mk "ids" none acc.modlist_ids
          , .mk "names" none acc.modlist_names ] ])

/-- The header of the CSV output, `field_names` on line 173. -/
def field_names : List String := ["mod_id", "mod_name", "mod_steam_id"]

/-- How `csv.DictWriter` renders one cell: `None` becomes the empty string,
a `str` is written as is (quoting is applied later, per field, when the row
is encoded to text). -/
def pyStrCell : PyStr → String
  | none => ""
  | some s => s

/-- The row written for one mod (line 180): `dataclasses.asdict` keyed by
`field_names`, hence the column order id, name, steam id. -/
def modRow (m : ModFromSave) : List String :=
  [pyStrCell m.mod_id, pyStrCell m.mod_name, pyStrCell m.mod_steam_id]

/-- The `TypeError` Python raises when `sorted` compares a `None` key with
another key. -/
inductive PyTypeError : Type where
  | typeError
deriving DecidableEq, Repr

/-- `mods_to_csv` (lines 160-180), modelled down to the list of rows written.
`ok none` is the early return with no file written (lines 169-171);
`ok (some rows)` models writing `rows` (header first). `sorted` with the
`mod_id` key is a stable sort, so it is modelled by `List.mergeSort`; when
the list has at least two elements every element's key enters at least one
comparison, so a `None` key raises `TypeError` (`error` case), while a
single-element list is returned by `sorted` without any comparison. -/
def mods_to_csv (mods : List ModFromSave) : Except PyTypeError (Option (List (List String))) :=
  if mods.length = 0 then .ok none
  else if 2 ≤ mods.length ∧ mods.any fun m => m.mod_id.isNone then
    .error .typeError
  else
    .ok (some (field_names :: (mods.mergeSort modIdLe).map modRow))

/-- Whether `csv` module quoting (default `QUOTE_MINIMAL`) must quote a
field: it contains the delimiter `;`, the quote character, or a character of
the line terminator. -/
def csvNeedsQuote (s : String) : Bool :=
  s.toList.any fun c => c = ';' ∨ c = '"' ∨ c = '\r' ∨ c = '\n'

/-- Encode one CSV field: quote it if needed, doubling embedded quote
characters. -/
def csvQuoteField (s : String) : String :=
  if csvNeedsQuote s then "\"" ++ (s.replace "\"" "\"\"") ++ "\"" else s

/-- Encode one row as written by `csv.writer` with `delimiter=\x22;\x22` and
the default `\r\n` line terminator. -/
def encodeRow (cells : List String) : String :=
  String.intercalate ";" (cells.map csvQuoteField) ++ "\r\n"

/-- The text content of the CSV file for a given list of rows. -/
def csvFileContent (rows : List (List String)) : String :=
  String.join (rows.map encodeRow)

/-- Reading one data row of the CSV back into a record: the three cells, in
header order id, name, steam id. -/
def rowToRecord : List String → Option ModFromSave
  | [i, n, s] => some ⟨some i, some s, some n⟩
  | _ => none

/-- Lexicographic comparison is reflexive. -/
theorem lexLe_refl (l : List Char) : lexLe l l = true := by
  induction l with
  | nil => rfl
  | cons a as ih => simp [lexLe, ih]

/-- Lexicographic comparison is total. -/
theorem lexLe_total (a b : List Char) : lexLe a b = true ∨ lexLe b a = true := by
  induction a generalizing b with
  | nil => left; rfl
  | cons x xs ih =>
    cases b with
    | nil => right; rfl
    | cons y ys =>
      rcases Nat.lt_trichotomy x.val.toNat y.val.toNat with h | h | h
      · left; simp [lexLe, h]
      · rcases ih ys with h2 | h2
        · left; simp [lexLe, h, h2]
        · right; simp [lexLe, h.symm, h2]
      · right; simp [lexLe, h]

/-- Lexicographic comparison is transitive. -/
theorem lexLe_trans : ∀ a b c : List Char,
    lexLe a b = true → lexLe b c = true → lexLe a c = true := by
  intro a
  induction a with
  | nil => intro b c _ _; rfl
  | cons x xs ih =>
    intro b c hab hbc
    cases b with
    | nil => simp [lexLe] at hab
    | cons y ys =>
      cases c with
      | nil => simp [lexLe] at hbc
      | cons z zs =>
        by_cases h1 : x.val.toNat < y.val.toNat
        · by_cases h2 : y.val.toNat < z.val.toNat
          · have hxz : x.val.toNat < z.val.toNat := by omega
            simp [lexLe, hxz]
          · by_cases h3 : z.val.toNat < y.val.toNat
            · simp [lexLe, h2, h3] at hbc
            · have hxz : x.val.toNat < z.val.toNat := by omega
              simp [lexLe, hxz]
        · by_cases h4 : y.val.toNat < x.val.toNat
          · simp [lexLe, h1, h4] at hab
          · have hxy : lexLe xs ys = true := by simpa [lexLe, h1, h4] using hab
            by_cases h2 : y.val.toNat < z.val.toNat
            · have hxz : x.val.toNat < z.val.toNat := by omega
              simp [lexLe, hxz]
            · by_cases h3 : z.val.toNat < y.val.toNat
              · simp [lexLe, h2, h3] at hbc
              · have hyz : lexLe ys zs = true := by simpa [lexLe, h2, h3] using hbc
                have hxz1 : ¬ x.val.toNat < z.val.toNat := by omega
                have hxz2 : ¬ z.val.toNat < x.val.toNat := by omega
                simp [lexLe, hxz1, hxz2, ih ys zs hxy hyz]

/-- The csv sort key comparison is total. -/
theorem modIdLe_total (a b : ModFromSave) : (modIdLe a b || modIdLe b a) = true := by
  simp only [modIdLe, pyStrLe, Bool.or_eq_true]
  exact lexLe_total _ _

/-- The csv sort key comparison is transitive. -/
theorem modIdLe_trans (a b c : ModFromSave) :
    modIdLe a b = true → modIdLe b c = true → modIdLe a c = true :=
  lexLe_trans _ _ _

/-- Zipping three equal-length lists yields a list of the same length. -/
theorem zipMods_length (ids steams names : List PyStr)
    (h1 : ids.length = steams.length) (h2 : ids.length = names.length) :
    (zipMods ids steams names).length = ids.length := by
  induction ids generalizing steams names with
  | nil => cases steams <;> cases names <;> simp [zipMods]
  | cons i is ih =>
    cases steams with
    | nil => simp at h1
    | cons st sts =>
      cases names with
      | nil => simp at h2
      | cons n ns =>
        simp only [List.length_cons] at h1 h2
        simp [zipMods, ih sts ns (by omega) (by omega)]

/-- Element `i` of the zip of three equal-length lists is built from element
`i` of each list. -/
theorem zipMods_get (ids steams names : List PyStr)
    (h1 : ids.length = steams.length) (h2 : ids.length = names.length) :
    ∀ i : Nat, i < ids.length →
      ∃ a b c, ids[i]? = some a ∧ steams[i]? = some b ∧ names[i]? = some c ∧
        (zipMods ids steams names)[i]? = some (⟨a, b, c⟩ : ModFromSave) := by
  induction ids generalizing steams names with
  | nil => intro i hi; simp at hi
  | cons x xs ih =>
    intro i hi
    cases steams with
    | nil => simp at h1
    | cons st sts =>
      cases names with
      | nil => simp at h2
      | cons n ns =>
        simp only [List.length_cons] at h1 h2
        cases i with
        | zero => exact ⟨x, st, n, by simp [zipMods]⟩
        | succ j =>
          obtain ⟨a, b, c, ha, hb, hc, hz⟩ :=
            ih sts ns (by omega) (by omega) j (by simpa using hi)
          exact ⟨a, b, c, by simpa using ha, by simpa using hb, by simpa using hc,
            by simpa [zipMods] using hz⟩

/-- The loop of `mods_to_modlist` appends, to each of the five accumulating
nodes, one `li` per mod in input order. -/
theorem foldl_addMod (mods : List ModFromSave) (a : ModListAcc) :
    mods.foldl addMod a =
      ⟨a.ids ++ mods.map fun m => li m.mod_id,
       a.steams ++ mods.map fun m => li m.mod_steam_id,
       a.names ++ mods.map fun m => li m.mod_name,
       a.modlist_ids ++ mods.map fun m => li m.mod_id,
       a.modlist_names ++ mods.map fun m => li m.mod_name⟩ := by
  induction mods generalizing a with
  | nil => simp
  | cons m ms ih =>
    simp [List.foldl_cons, ih, addMod, List.append_assoc]

/-- A stable sort does not move elements whose keys form one equivalence
class of the comparison: filtering them out of the sorted list returns them
in input order. -/
theorem mergeSort_filter_stable {α : Type} (le : α → α → Bool)
    (htrans : ∀ a b c : α, le a b = true → le b c = true → le a c = true)
    (htotal : ∀ a b : α, (le a b || le b a) = true)
    (l : List α) (p : α → Bool)
    (hp : ∀ a b : α, p a = true → p b = true → le a b = true) :
    (l.mergeSort le).filter p = l.filter p := by
  have hpair : (l.filter p).Pairwise fun a b => le a b = true :=
    List.pairwise_of_forall_mem_list fun a ha b hb =>
      hp a b (List.of_mem_filter ha) (List.of_mem_filter hb)
  have hsub : (l.filter p).Sublist (l.mergeSort le) :=
    List.sublist_mergeSort htrans htotal hpair (List.filter_sublist l)
  have hsub2 : ((l.filter p).filter p).Sublist ((l.mergeSort le).filter p) :=
    hsub.filter p
  have hff : (l.filter p).filter p = l.filter p := by
    simp [List.filter_filter]
  rw [hff] at hsub2
  have hlen : ((l.mergeSort le).filter p).length = (l.filter p).length :=
    ((l.mergeSort_perm le).filter p).length_eq
  exact (hsub2.eq_of_length hlen.symm).symm

/-- Reading the emitted rows back yields the records they were written from,
provided every field actually is a string. -/
theorem filterMap_rowToRecord (l : List ModFromSave)
    (h : ∀ m ∈ l, m.mod_id.isSome ∧ m.mod_steam_id.isSome ∧ m.mod_name.isSome) :
    (l.map modRow).filterMap rowToRecord = l := by
  induction l with
  | nil => rfl
  | cons m ms ih =>
    obtain ⟨h1, h2, h3⟩ := h m (by simp)
    obtain ⟨i, hi⟩ := Option.isSome_iff_exists.mp h1
    obtain ⟨s, hs⟩ := Option.isSome_iff_exists.mp h2
    obtain ⟨n, hn⟩ := Option.isSome_iff_exists.mp h3
    have hrec : rowToRecord (modRow m) = some m := by
      cases m
      simp_all [modRow, pyStrCell, rowToRecord]
    simp [List.filterMap_cons, hrec, ih fun m hm => h m (List.mem_cons_of_mem _ hm)]

/-- Successful path of the body of the extractor: a found game version and
three collected lists of equal length produce the zip of the three lists. -/
theorem extractFromMeta_ok (m : Element) (gv : String) (ids steams names : List PyStr)
    (hscan : m.children.foldl scanMetaChild initScan
      = ⟨some gv, some ids, some steams, some names⟩)
    (h1 : ids.length = steams.length) (h2 : ids.length = names.length) :
    extractFromMeta m = .ok (gv, zipMods ids steams names) := by
  unfold extractFromMeta
  rw [hscan]
  simp [h1, h2]
  omega

/-- Length-mismatch path of the body of the extractor. -/
theorem extractFromMeta_mismatch (m : Element) (gv : String) (ids steams names : List PyStr)
    (hscan : m.children.foldl scanMetaChild initScan
      = ⟨some gv, some ids, some steams, some names⟩)
    (hne : ids.length ≠ steams.length ∨ ids.length ≠ names.length) :
    extractFromMeta m = .error (.mismatchedCounts ids.length steams.length names.length) := by
  unfold extractFromMeta
  rw [hscan]
  simp [hne]

/-- The account of an error message mentioning a number: the number's decimal
rendering occurs in the message. -/
def msgContains (msg : String) (n : Nat) : Prop :=
  List.IsInfix (toString n).toList msg.toList

/-- The mismatch error message displays all three observed lengths. -/
theorem mismatch_message_contains_counts (a b c : Nat) :
    msgContains (ExtractError.mismatchedCounts a b c).message a ∧
    msgContains (ExtractError.mismatchedCounts a b c).message b ∧
    msgContains (ExtractError.mismatchedCounts a b c).message c := by
  refine ⟨⟨"Different number of mod ids/names/steamids (".toList,
      ("/" ++ toString b ++ "/" ++ toString c ++ ")").toList, ?_⟩,
    ⟨("Different number of mod ids/names/steamids (" ++ toString a ++ "/").toList,
      ("/" ++ toString c ++ ")").toList, ?_⟩,
    ⟨("Different number of mod ids/names/steamids (" ++ toString a ++ "/"
        ++ toString b ++ "/").toList,
      ")".toList, ?_⟩⟩ <;>
    simp [ExtractError.message, String.toList, String.data_append, List.append_assoc]

/-- C1: for every well-formed save document whose meta block yields id,
Steam-id and name sequences of equal length and a game version, extraction
returns that game version together with exactly as many records, record `i`
being formed from element `i` of each of the three sequences, in the order
of the `modIds` list. -/
theorem extract_returns_zipped_records
    (root m : Element) (gv : String) (ids steams names : List PyStr)
    (hmeta : (metaChildren root).head? = some m)
    (hscan : m.children.foldl scanMetaChild initScan
      = ⟨some gv, some ids, some steams, some names⟩)
    (h1 : ids.length = steams.length) (h2 : ids.length = names.length) :
    ∃ recs : List ModFromSave,
      extract_mod_from_save root = .ok (gv, recs) ∧
      recs.length = ids.length ∧
      ∀ i : Nat, i < ids.length →
        ∃ a b c, ids[i]? = some a ∧ steams[i]? = some b ∧ names[i]? = some c ∧
          recs[i]? = some (⟨a, b, c⟩ : ModFromSave) := by
  refine ⟨zipMods ids steams names, ?_, zipMods_length _ _ _ h1 h2,
    zipMods_get _ _ _ h1 h2⟩
  unfold extract_mod_from_save
  rw [hmeta]
  exact extractFromMeta_ok m gv ids steams names hscan h1 h2

/-- C1 witness: a concrete two-mod save. -/
def sampleMeta : Element := .mk "meta" none
  [ .mk "gameVersion" (some "1.4.3704 rev898") []
  , .mk "modIds" none
      [.mk "li" (some "brrainz.harmony") [], .mk "li" (some "ludeon.rimworld") []]
  , .mk "modSteamIds" none [.mk "li" (some "2009463077") [], .mk "li" (some "0") []]
  , .mk "modNames" none [.mk "li" (some "Harmony") [], .mk "li" (some "RimWorld") []] ]

/-- C1 witness: the save document around `sampleMeta`. -/
def sampleDoc : Element := .mk "savegame" none [sampleMeta]

/-- C1 witness: the hypotheses of `extract_returns_zipped_records` hold for
the concrete save `sampleDoc` and the conclusion follows by applying that
theorem there. -/
theorem extract_returns_zipped_records_witness :
    ((metaChildren sampleDoc).head? = some sampleMeta ∧
      sampleMeta.children.foldl scanMetaChild initScan
        = ⟨some "1.4.3704 rev898",
           some [some "brrainz.harmony", some "ludeon.rimworld"],
           some [some "2009463077", some "0"],
           some [some "Harmony", some "RimWorld"]⟩) ∧
    ∃ recs : List ModFromSave,
      extract_mod_from_save sampleDoc = .ok ("1.4.3704 rev898", recs) ∧
      recs.length = ([some "brrainz.harmony", some "ludeon.rimworld"] : List PyStr).length ∧
      ∀ i : Nat, i < ([some "brrainz.harmony", some "ludeon.rimworld"] : List PyStr).length →
        ∃ a b c, ([some "brrainz.harmony", some "ludeon.rimworld"] : List PyStr)[i]? = some a ∧
          ([some "2009463077", some "0"] : List PyStr)[i]? = some b ∧
          ([some "Harmony", some "RimWorld"] : List PyStr)[i]? = some c ∧
          recs[i]? = some (⟨a, b, c⟩ : ModFromSave) :=
  ⟨⟨rfl, rfl⟩,
    extract_returns_zipped_records sampleDoc sampleMeta "1.4.3704 rev898"
      [some "brrainz.harmony", some "ludeon.rimworld"]
      [some "2009463077", some "0"]
      [some "Harmony", some "RimWorld"] rfl rfl rfl rfl⟩

/-- C2 counterexample, meta part: a meta block whose lists have lengths
2, 1, 2 but which carries no game version. -/
def mismatchNoVersionMeta : Element := .mk "meta" none
  [ .mk "modIds" none [.mk "li" (some "aaa.first") [], .mk "li" (some "bbb.second") []]
  , .mk "modSteamIds" none [.mk "li" (some "1") []]
  , .mk "modNames" none [.mk "li" (some "First") [], .mk "li" (some "Second") []] ]

/-- C2 counterexample: the document around `mismatchNoVersionMeta`. -/
def mismatchNoVersionDoc : Element := .mk "savegame" none [mismatchNoVersionMeta]

/-- C2 counterexample: a parsed save whose collected sequences have the
unequal lengths 2, 1, 2 on which extraction raises the game-version error
instead, whose message mentions neither 2 nor 1: the game-version check of
line 64 precedes the length comparison of line 68. -/
theorem mismatch_without_version_message_lacks_counts :
    (metaChildren mismatchNoVersionDoc).head? = some mismatchNoVersionMeta ∧
    mismatchNoVersionMeta.children.foldl scanMetaChild initScan
      = ⟨none, some [some "aaa.first", some "bbb.second"], some [some "1"],
         some [some "First", some "Second"]⟩ ∧
    extract_mod_from_save mismatchNoVersionDoc = .error .gameVersionEmpty ∧
    ¬ msgContains ExtractError.gameVersionEmpty.message 2 ∧
    ¬ msgContains ExtractError.gameVersionEmpty.message 1 := by
  refine ⟨rfl, rfl, rfl, ?_, ?_⟩ <;> · simp only [msgContains]; decide

/-- C2 amended: for every parsed save in which the meta scan found a game
version and all three mod attribute lists, if the three collected sequences
do not all have equal length then extraction fails with the mismatch error
carrying the three observed lengths, and its message displays all three. -/
theorem mismatch_error_names_all_counts
    (root m : Element) (gv : String) (ids steams names : List PyStr)
    (hmeta : (metaChildren root).head? = some m)
    (hscan : m.children.foldl scanMetaChild initScan
      = ⟨some gv, some ids, some steams, some names⟩)
    (hne : ids.length ≠ steams.length ∨ ids.length ≠ names.length) :
    extract_mod_from_save root
      = .error (.mismatchedCounts ids.length steams.length names.length) ∧
    msgContains (ExtractError.mismatchedCounts ids.length steams.length names.length).message
      ids.length ∧
    msgContains (ExtractError.mismatchedCounts ids.length steams.length names.length).message
      steams.length ∧
    msgContains (ExtractError.mismatchedCounts ids.length steams.length names.length).message
      names.length := by
  refine ⟨?_, mismatch_message_contains_counts _ _ _⟩
  unfold extract_mod_from_save
  rw [hmeta]
  exact extractFromMeta_mismatch m gv ids steams names hscan hne

/-- C2 witness, meta part: game version present, lists of lengths 2, 1, 2. -/
def mismatchMeta : Element := .mk "meta" none
  [ .mk "gameVersion" (some "1.0.0 rev0") []
  , .mk "modIds" none [.mk "li" (some "aaa.first") [], .mk "li" (some "bbb.second") []]
  , .mk "modSteamIds" none [.mk "li" (some "1") []]
  , .mk "modNames" none [.mk "li" (some "First") [], .mk "li" (some "Second") []] ]

/-- C2 witness: the document around `mismatchMeta`. -/
def mismatchDoc : Element := .mk "savegame" none [mismatchMeta]

/-- C2 witness: the amended statement applied to the concrete save with
counts 2, 1, 2. -/
theorem mismatch_error_names_all_counts_witness :
    ((metaChildren mismatchDoc).head? = some mismatchMeta ∧
      mismatchMeta.children.foldl scanMetaChild initScan
        = ⟨some "1.0.0 rev0", some [some "aaa.first", some "bbb.second"],
           some [some "1"], some [some "First", some "Second"]⟩ ∧
      ([some "aaa.first", some "bbb.second"] : List PyStr).length
          ≠ ([some "1"] : List PyStr).length) ∧
    extract_mod_from_save mismatchDoc = .error (.mismatchedCounts 2 1 2) ∧
    msgContains (ExtractError.mismatchedCounts 2 1 2).message 2 ∧
    msgContains (ExtractError.mismatchedCounts 2 1 2).message 1 :=
  ⟨⟨rfl, rfl, by decide⟩,
    have h := mismatch_error_names_all_counts mismatchDoc mismatchMeta "1.0.0 rev0"
      [some "aaa.first", some "bbb.second"] [some "1"]
      [some "First", some "Second"] rfl rfl (Or.inl (by decide))
    ⟨h.1, h.2.1, h.2.2.1⟩⟩

/-- C3: a save whose meta holds a game version but none of the three mod
list elements. The spec says extraction must succeed with zero records, but
the code never assigns the locals `mod_ids`, `mod_steam_ids`, `mod_names`
and crashes at line 68 with `UnboundLocalError`, so this records a code bug:
extraction fails and in particular does not return the version with an
empty record list. -/
def versionOnlyDoc : Element := .mk "savegame" none
  [.mk "meta" none [.mk "gameVersion" (some "1.0") []]]

/-- C3: on `versionOnlyDoc` the extractor raises `UnboundLocalError` instead
of returning the version and an empty record sequence. -/
theorem extract_without_mod_lists_crashes :
    extract_mod_from_save versionOnlyDoc = .error .unboundLocal ∧
    extract_mod_from_save versionOnlyDoc ≠ .ok ("1.0", []) :=
  ⟨rfl, fun h => nomatch h⟩

/-- C8: a well-formed document whose root has no direct child tagged
exactly `meta` makes extraction fail with the missing-meta error, whatever
else the document contains (a `meta` nested deeper does not count, since
only direct children are searched). -/
theorem extract_missing_meta (root : Element)
    (h : ∀ c ∈ root.children, c.tag ≠ "meta") :
    extract_mod_from_save root = .error .missingMeta := by
  have hnil : metaChildren root = [] := by
    rw [metaChildren, List.filter_eq_nil_iff]
    intro c hc
    simpa using h c hc
  unfold extract_mod_from_save
  rw [hnil]
  rfl

/-- C8 witness: a document with a `meta` nested one level deeper but none
among the direct children of the root. -/
def nestedMetaDoc : Element := .mk "savegame" none
  [.mk "game" none [.mk "meta" none [.mk "gameVersion" (some "1.0") []]]]

/-- C8 witness: `extract_missing_meta` applied to `nestedMetaDoc`. -/
theorem extract_missing_meta_witness :
    (∀ c ∈ nestedMetaDoc.children, c.tag ≠ "meta") ∧
    extract_mod_from_save nestedMetaDoc = .error .missingMeta :=
  ⟨by decide, extract_missing_meta nestedMetaDoc (by decide)⟩

/-- C10: extraction reads only the first direct `meta` child of the root:
whenever it is `m0`, the whole result is a function of `m0` alone, and
appending one more `meta` sibling after it - whatever that sibling's
children hold - leaves the result unchanged. -/
theorem extract_reads_first_meta_only (r m0 extra : Element)
    (h : (metaChildren r).head? = some m0) (hx : extra.tag = "meta") :
    extract_mod_from_save r = extractFromMeta m0 ∧
    extract_mod_from_save (.mk r.tag r.text (r.children ++ [extra]))
      = extract_mod_from_save r := by
  have h1 : extract_mod_from_save r = extractFromMeta m0 := by
    unfold extract_mod_from_save
    rw [h]
  refine ⟨h1, ?_⟩
  have h2 : metaChildren (.mk r.tag r.text (r.children ++ [extra]))
      = metaChildren r ++ [extra] := by
    simp [metaChildren, Element.children, List.filter_append, hx]
  have h3 : (metaChildren r ++ [extra]).head? = some m0 := by
    cases hmc : metaChildren r with
    | nil => rw [hmc] at h; simp at h
    | cons a t =>
      rw [hmc] at h
      simp only [List.head?_cons, Option.some.injEq] at h
      simp [h]
  rw [h1]
  unfold extract_mod_from_save
  rw [h2, h3]

/-- C10 witness: a second `meta` sibling with a different version and a mod
list, appended after the save's real `meta`; extraction ignores it. -/
def extraMeta : Element := .mk "meta" none
  [ .mk "gameVersion" (some "9.9") []
  , .mk "modIds" none [.mk "li" (some "other.mod") []] ]

/-- C10 witness: `extract_reads_first_meta_only` applied to `sampleDoc` and
`extraMeta`. -/
theorem extract_reads_first_meta_only_witness :
    ((metaChildren sampleDoc).head? = some sampleMeta ∧ extraMeta.tag = "meta") ∧
    (extract_mod_from_save sampleDoc = extractFromMeta sampleMeta ∧
      extract_mod_from_save
          (.mk sampleDoc.tag sampleDoc.text (sampleDoc.children ++ [extraMeta]))
        = extract_mod_from_save sampleDoc) :=
  ⟨⟨rfl, rfl⟩, extract_reads_first_meta_only sampleDoc sampleMeta extraMeta rfl rfl⟩

/-- C4: for a non-empty record list the emitted mod-list document has root
`savedModList` holding a `meta` block (`gameVersion` with the version text,
then `modIds`, `modSteamIds`, `modNames`, each with one `li` per record in
input order carrying the respective field) and a `modList` block (`ids` and
`names`, same `li` lists), and no Steam-id list appears under `modList`. -/
theorem mods_to_modlist_structure (gv : String) (mods : List ModFromSave)
    (hne : mods ≠ []) :
    mods_to_modlist gv mods = some (.mk "savedModList" none
      [ .mk "meta" none
          [ .mk "gameVersion" (some gv) []
          , .mk "modIds" none (mods.map fun m => li m.mod_id)
          , .mk "modSteamIds" none (mods.map fun m => li m.mod_steam_id)
          , .mk "modNames" none (mods.map fun m => li m.mod_name) ]
      , .mk "modList" none
          [ .mk "ids" none (mods.map fun m => li m.mod_id)
          , .mk "names" none (mods.map fun m => li m.mod_name) ] ]) ∧
    ∀ c ∈ [Element.mk "ids" none (mods.map fun m => li m.mod_id),
           Element.mk "names" none (mods.map fun m => li m.mod_name)],
      c.tag ≠ "modSteamIds" := by
  constructor
  · simp only [mods_to_modlist]
    rw [if_neg (by simpa using hne), foldl_addMod]
    simp
  · intro c hc
    rcases List.mem_pair.mp hc with rfl | rfl <;> simp [Element.tag]

/-- C4 witness: a concrete one-record list. -/
def rmlMods : List ModFromSave := [⟨some "a.mod", some "1", some "Ay"⟩]

/-- C4 witness: `mods_to_modlist_structure` applied to `rmlMods`. -/
theorem mods_to_modlist_structure_witness :
    (rmlMods ≠ []) ∧
    (mods_to_modlist "1.0" rmlMods = some (.mk "savedModList" none
      [ .mk "meta" none
          [ .mk "gameVersion" (some "1.0") []
          , .mk "modIds" none (rmlMods.map fun m => li m.mod_id)
          , .mk "modSteamIds" none (rmlMods.map fun m => li m.mod_steam_id)
          , .mk "modNames" none (rmlMods.map fun m => li m.mod_name) ]
      , .mk "modList" none
          [ .mk "ids" none (rmlMods.map fun m => li m.mod_id)
          , .mk "names" none (rmlMods.map fun m => li m.mod_name) ] ]) ∧
    ∀ c ∈ [Element.mk "ids" none (rmlMods.map fun m => li m.mod_id),
           Element.mk "names" none (rmlMods.map fun m => li m.mod_name)],
      c.tag ≠ "modSteamIds") :=
  ⟨by decide, mods_to_modlist_structure "1.0" rmlMods (by decide)⟩

/-- Common unfolding of `mods_to_csv` on a non-empty list all of whose
records have a string id: the rows are the header followed by the stably
sorted records. -/
theorem mods_to_csv_eq_of_ids_present (mods : List ModFromSave)
    (hne : mods ≠ []) (hids : ∀ m ∈ mods, m.mod_id.isSome) :
    mods_to_csv mods
      = .ok (some (field_names :: (mods.mergeSort modIdLe).map modRow)) := by
  unfold mods_to_csv
  rw [if_neg (by simpa using hne), if_neg ?_]
  rintro ⟨-, hany⟩
  obtain ⟨m, hm, hnone⟩ := List.any_eq_true.mp hany
  have hsome := hids m hm
  cases m.mod_id <;> simp_all

/-- C5: for a non-empty record list with string ids, the csv emitter writes
the header row `mod_id;mod_name;mod_steam_id` followed by one `;`-delimited
row per record, the records being sorted ascending by the id field under the
lexicographic string order, stably: records with equal ids keep their
relative input order. -/
theorem mods_to_csv_sorted_rows (mods : List ModFromSave)
    (hne : mods ≠ []) (hids : ∀ m ∈ mods, m.mod_id.isSome) :
    mods_to_csv mods
      = .ok (some (field_names :: (mods.mergeSort modIdLe).map modRow)) ∧
    encodeRow field_names = "mod_id;mod_name;mod_steam_id" ++ "\r\n" ∧
    (mods.mergeSort modIdLe).Pairwise (fun a b => modIdLe a b = true) ∧
    (mods.mergeSort modIdLe).Perm mods ∧
    ∀ k : String, (mods.mergeSort modIdLe).filter (fun m => m.mod_id = some k)
      = mods.filter fun m => m.mod_id = some k := by
  refine ⟨mods_to_csv_eq_of_ids_present mods hne hids, rfl,
    List.sorted_mergeSort modIdLe_trans modIdLe_total mods,
    List.mergeSort_perm mods modIdLe, fun k => ?_⟩
  refine mergeSort_filter_stable modIdLe modIdLe_trans modIdLe_total mods _ ?_
  intro a b ha hb
  have ha2 : a.mod_id = some k := of_decide_eq_true ha
  have hb2 : b.mod_id = some k := of_decide_eq_true hb
  simp [modIdLe, pyStrLe, ha2, hb2, lexLe_refl]

/-- C5 and C7 witness data: two records with distinct ids, given out of
order. -/
def csvMods : List ModFromSave :=
  [⟨some "b.mod", some "2", some "Bee"⟩, ⟨some "a.mod", some "1", some "Ay"⟩]

/-- C5 witness: `mods_to_csv_sorted_rows` applied to `csvMods`. -/
theorem mods_to_csv_sorted_rows_witness :
    (csvMods ≠ [] ∧ ∀ m ∈ csvMods, m.mod_id.isSome) ∧
    (mods_to_csv csvMods
      = .ok (some (field_names :: (csvMods.mergeSort modIdLe).map modRow)) ∧
    encodeRow field_names = "mod_id;mod_name;mod_steam_id" ++ "\r\n" ∧
    (csvMods.mergeSort modIdLe).Pairwise (fun a b => modIdLe a b = true) ∧
    (csvMods.mergeSort modIdLe).Perm csvMods ∧
    ∀ k : String, (csvMods.mergeSort modIdLe).filter (fun m => m.mod_id = some k)
      = csvMods.filter fun m => m.mod_id = some k) :=
  ⟨⟨by decide, by decide⟩, mods_to_csv_sorted_rows csvMods (by decide) (by decide)⟩

/-- C6: called with an empty record list, both emitters return before
reaching any write: the mod-list emitter produces no document and the csv
emitter produces no rows (in this model a written file is the `some`
payload, so `none` is the absent output file). -/
theorem empty_mods_skip_write (gv : String) :
    mods_to_modlist gv [] = none ∧ mods_to_csv [] = .ok none :=
  ⟨rfl, rfl⟩

/-- C7: round trip. For a non-empty list of records whose fields are all
strings, the emitted data rows read back (in order) as exactly the input
records sorted by id; re-sorting the read-back records by the id column
changes nothing, and the read-back records are a permutation of the input -
nothing is lost, duplicated or invented. -/
theorem mods_to_csv_round_trip (mods : List ModFromSave)
    (hne : mods ≠ [])
    (hfields : ∀ m ∈ mods,
      m.mod_id.isSome ∧ m.mod_steam_id.isSome ∧ m.mod_name.isSome) :
    mods_to_csv mods
      = .ok (some (field_names :: (mods.mergeSort modIdLe).map modRow)) ∧
    ((mods.mergeSort modIdLe).map modRow).filterMap rowToRecord
      = mods.mergeSort modIdLe ∧
    (((mods.mergeSort modIdLe).map modRow).filterMap rowToRecord).mergeSort modIdLe
      = mods.mergeSort modIdLe ∧
    (((mods.mergeSort modIdLe).map modRow).filterMap rowToRecord).Perm mods := by
  have hread : ((mods.mergeSort modIdLe).map modRow).filterMap rowToRecord
      = mods.mergeSort modIdLe :=
    filterMap_rowToRecord _ fun m hm =>
      hfields m (((List.mergeSort_perm mods modIdLe).mem_iff).mp hm)
  refine ⟨mods_to_csv_eq_of_ids_present mods hne fun m hm => (hfields m hm).1,
    hread, ?_, ?_⟩
  · rw [hread]
    exact List.mergeSort_of_sorted (List.sorted_mergeSort modIdLe_trans modIdLe_total mods)
  · rw [hread]
    exact List.mergeSort_perm mods modIdLe

/-- C7 witness: `mods_to_csv_round_trip` applied to `csvMods`. -/
theorem mods_to_csv_round_trip_witness :
    (csvMods ≠ [] ∧ ∀ m ∈ csvMods,
      m.mod_id.isSome ∧ m.mod_steam_id.isSome ∧ m.mod_name.isSome) ∧
    (mods_to_csv csvMods
      = .ok (some (field_names :: (csvMods.mergeSort modIdLe).map modRow)) ∧
    ((csvMods.mergeSort modIdLe).map modRow).filterMap rowToRecord
      = csvMods.mergeSort modIdLe ∧
    (((csvMods.mergeSort modIdLe).map modRow).filterMap rowToRecord).mergeSort modIdLe
      = csvMods.mergeSort modIdLe ∧
    (((csvMods.mergeSort modIdLe).map modRow).filterMap rowToRecord).Perm csvMods) :=
  ⟨⟨by decide, by decide⟩, mods_to_csv_round_trip csvMods (by decide) (by decide)⟩

/-- C9: meta part of the failing input, a save whose `modIds` list holds one
empty `li`. -/
def emptyLiMeta : Element := .mk "meta" none
  [ .mk "gameVersion" (some "1.0") []
  , .mk "modIds" none [.mk "li" none []]
  , .mk "modSteamIds" none [.mk "li" (some "123") []]
  , .mk "modNames" none [.mk "li" (some "SomeMod") []] ]

/-- C9: the document around `emptyLiMeta`. -/
def emptyLiDoc : Element := .mk "savegame" none [emptyLiMeta]

/-- C9: fields are copied verbatim with no validation, but they are not
always strings: for an empty list item the `ElementTree` text is Python
`None`, and it lands in the record as-is (the `cast(str, ...)` on lines
83-85 converts nothing), contradicting the dataclass's `str` annotations -
so the record produced for `emptyLiDoc` has `mod_id = None`, not a
string. -/
theorem extract_empty_li_field_is_not_string :
    extract_mod_from_save emptyLiDoc
      = .ok ("1.0", [⟨none, some "123", some "SomeMod"⟩]) ∧
    (⟨none, some "123", some "SomeMod"⟩ : ModFromSave).mod_id = none :=
  ⟨rfl, rfl⟩

end RimSave
